import Mathlib

/-!
Verification of the unireo monocular calibration pipeline
(`unireo/calib/mono_calib.py` and `unireo/calib/calib_data.py`).

The OpenCV primitives (`imread`, `cvtColor`, `findChessboardCorners`,
`cornerSubPix`, `calibrateCamera`, `getOptimalNewCameraMatrix`,
`initUndistortRectifyMap`, `remap`, `projectPoints`, `norm`) are external
library calls, not code of this repository; they are modelled as the fields
of an abstract structure `CV`.  External calls that OpenCV may reject with a
`cv2.error` are given `Option`-valued fields, `none` standing for a raised
exception; theorems that depend on an OpenCV contract (for example, that a
successful chessboard search returns exactly a·b corners) take that contract
as a hypothesis.

Pixel coordinates and matrix entries are rationals.  Images and matrices are
row lists; `PyVal` is the small dynamic-value universe needed to translate
the constructor of `MonoCalibData`, whose caller in `get_calib_data` passes
the remap pair and the ROI tuple positionally.
-/

namespace Unireo

/-- A numpy 2-D array: a list of rows of rational entries. -/
abbrev Mat := List (List ℚ)

/-- A 2-D image point (pixel coordinates). -/
abbrev Point2 := ℚ × ℚ

/-- A 3-D point in the board frame. -/
abbrev Point3 := ℚ × ℚ × ℚ

/-- A rotation or translation vector (3 components). -/
abbrev Vec3 := ℚ × ℚ × ℚ

/-- An image size `(w, h)` as passed to the OpenCV calls. -/
abbrev Size := Nat × Nat

/-- A raster image: a list of rows of pixel values. -/
structure Img where
  pix : List (List ℚ)
deriving DecidableEq

/-- Number of pixel rows of an image. -/
def Img.height (i : Img) : Nat := i.pix.length

/-- Termination criteria `(type, maxCount, epsilon)` as built on
`mono_calib.py` line 35. -/
abbrev Criteria := Nat × Nat × ℚ

/-- The OpenCV constant `cv2.TERM_CRITERIA_EPS`. -/
def TERM_CRITERIA_EPS : Nat := 2

/-- The OpenCV constant `cv2.TERM_CRITERIA_MAX_ITER`. -/
def TERM_CRITERIA_MAX_ITER : Nat := 1

/-- The OpenCV constant `cv2.INTER_LINEAR`. -/
def INTER_LINEAR : Nat := 1

/-- The OpenCV constant `cv2.CV_32FC1`. -/
def CV_32FC1 : Nat := 5

/-- The dynamic values that can land in the loosely-typed fields of
`MonoCalibData`: a matrix, a Python int, a 2-tuple (the pair of remap
matrices returned by `initUndistortRectifyMap`), or a 4-tuple of ints (the
ROI returned by `getOptimalNewCameraMatrix`). -/
inductive PyVal where
  | mat : Mat → PyVal
  | int : Int → PyVal
  | pair : PyVal → PyVal → PyVal
  | tup4 : Int → Int → Int → Int → PyVal
deriving DecidableEq

/-- Python subscription `v[n]` on the dynamic values above.  Indexing a
2-tuple or a 4-tuple succeeds at the respective positions; every other
subscription is modelled as failing (`none` = raised exception).  Only
tuple subscription is ever reached by the translated code. -/
def PyVal.index : PyVal → Nat → Option PyVal
  | .pair a _, 0 => some a
  | .pair _ b, 1 => some b
  | .tup4 x _ _ _, 0 => some (.int x)
  | .tup4 _ y _ _, 1 => some (.int y)
  | .tup4 _ _ w _, 2 => some (.int w)
  | .tup4 _ _ _ h, 3 => some (.int h)
  | _, _ => none

/-- The abstract OpenCV interface consumed by `mono_calib.py`.  `Option`
results model calls that can raise `cv2.error`; the boolean `ret` of
`findChessboardCorners` is folded into the `Option`. -/
structure CV where
  imread : String → Img
  cvtColor : Img → Img
  findChessboardCorners : Img → Size → Option Nat → Option (List Point2)
  cornerSubPix : Img → List Point2 → (Int × Int) → (Int × Int) → Criteria → List Point2
  calibrateCamera : List (List Point3) → List (List Point2) → Size → Option Mat → Option Mat →
      Option (ℚ × Mat × Mat × List Vec3 × List Vec3)
  getOptimalNewCameraMatrix : Mat → Mat → Size → ℚ → Size → Mat × (Int × Int × Int × Int)
  initUndistortRectifyMap : Mat → Mat → Option Mat → Mat → Size → Nat → Mat × Mat
  remap : Img → PyVal → PyVal → Nat → Option Img
  projectPoints : List Point3 → Vec3 → Vec3 → Mat → Mat → List Point2
  normL2 : List Point2 → List Point2 → ℚ

/-- Translation of `unireo/calib/calib_data.py`, class `MonoCalibData`: the field set, in
class-body order.  The three fields written from the constructor's last two
positional arguments carry dynamic values, as in the Python source. -/
structure MonoCalibData where
  object_points : List (List Point3)
  image_points : List (List Point2)
  camera_matrix : Mat
  dist_coeffs : Mat
  rvecs : List Vec3
  tvecs : List Vec3
  new_camera_matrix : Mat
  remap_roi : PyVal
  map_x : PyVal
  map_y : PyVal
deriving DecidableEq

/-- Translation of `MonoCalibData.__init__` (calib_data.py lines 58-75),
positionally: the eighth parameter is named `remap_roi`, the ninth
`img_map`; the body stores `img_map[0]` into `map_x`, `img_map[1]` into
`map_y`, and `remap_roi` into `remap_roi`.  Subscription failure (a
`TypeError`) is `none`. -/
def MonoCalibData.init (object_points : List (List Point3))
    (image_points : List (List Point2)) (camera_matrix : Mat) (dist_coeffs : Mat)
    (rvecs : List Vec3) (tvecs : List Vec3) (new_camera_matrix : Mat)
    (remap_roi : PyVal) (img_map : PyVal) : Option MonoCalibData := do
  let mx ← img_map.index 0
  let my ← img_map.index 1
  some ⟨object_points, image_points, camera_matrix, dist_coeffs, rvecs, tvecs,
        new_camera_matrix, remap_roi, mx, my⟩

/-- Outcome of `get_calib_data`.  `ok` and `exn` (an uncaught exception
propagating out of the call) are the behaviours of the source; the
`insufficientData` constructor renders the typed failure named by the spec's
error taxonomy, so that the two can be compared. -/
inductive CalibOutcome where
  | ok : MonoCalibData → CalibOutcome
  | insufficientData : CalibOutcome
  | exn : CalibOutcome
deriving DecidableEq

/-- Translation of `np.mgrid[0:a, 0:b].T.reshape(-1, 2)` (mono_calib.py line 31): the pairs
`(i, k)` for `k < b`, `i < a`, with `i` varying fastest. -/
def mgridT (a b : Nat) : List (Nat × Nat) :=
  (List.range b).flatMap (fun k => (List.range a).map (fun i => (i, k)))

/-- The chessboard pattern `objp` of mono_calib.py lines 30-31: an `a*b` row
zero array of 3-D points whose first two columns are overwritten with
`mgridT`. -/
def objp (a b : Nat) : List Point3 :=
  (mgridT a b).map (fun p => ((p.1 : ℚ), (p.2 : ℚ), 0))

/-- The termination criteria literal of mono_calib.py line 35. -/
def criteriaVal : Criteria :=
  (TERM_CRITERIA_EPS + TERM_CRITERIA_MAX_ITER, 30, 1/1000)

/-- The image loop of `get_calib_data` (mono_calib.py lines 44-59): for each
path, read and grey the image, search for the chessboard corners, and on
success append the pattern to the object points and the sub-pixel-refined
corners to the image points.  An image whose search fails contributes
nothing. -/
def collectPoints (cv : CV) (chessboard_size : Size) (pattern : List Point3) :
    List String → List (List Point3) × List (List Point2)
  | [] => ([], [])
  | image :: rest =>
    let gray := cv.cvtColor (cv.imread image)
    let tail := collectPoints cv chessboard_size pattern rest
    match cv.findChessboardCorners gray chessboard_size none with
    | some corners =>
      let corners2 := cv.cornerSubPix gray corners (11, 11) (-1, -1) criteriaVal
      (pattern :: tail.1, corners2 :: tail.2)
    | none => tail

/-- Translation of `get_calib_data` (mono_calib.py lines 13-74).  Note the constructor call
on lines 71-72: the eighth positional argument is `remap` (the pair of maps)
and the ninth is `roi`, matching `__init__`'s `remap_roi` and `img_map`
parameters in that order. -/
def get_calib_data (cv : CV) (chessboard_size : Size) (img_size : Size)
    (img_series : List String) : CalibOutcome :=
  let pattern := objp chessboard_size.1 chessboard_size.2
  let pts := collectPoints cv chessboard_size pattern img_series
  match cv.calibrateCamera pts.1 pts.2 img_size none none with
  | none => .exn
  | some (_ret_val, camera_matrix, dist_coeffs, rvecs, tvecs) =>
    let opt := cv.getOptimalNewCameraMatrix camera_matrix dist_coeffs img_size 1 img_size
    let new_camera_matrix := opt.1
    let roi := opt.2
    let remapMaps := cv.initUndistortRectifyMap camera_matrix dist_coeffs none
        new_camera_matrix img_size CV_32FC1
    match MonoCalibData.init pts.1 pts.2 camera_matrix dist_coeffs rvecs tvecs
        new_camera_matrix
        (PyVal.pair (PyVal.mat remapMaps.1) (PyVal.mat remapMaps.2))
        (PyVal.tup4 roi.1 roi.2.1 roi.2.2.1 roi.2.2.2) with
    | none => .exn
    | some d => .ok d

/-- Normalised index of a Python slice bound `i` against a list of length
`L`: negative bounds count from the end, and both are clamped to `[0, L]`. -/
def pyIdx (i : Int) (L : Nat) : Nat :=
  if i < 0 then (max 0 ((L : Int) + i)).toNat else min i.toNat L

/-- Python list slice `xs[start:stop]` (step 1). -/
def pySlice (start stop : Int) (xs : List α) : List α :=
  (xs.take (pyIdx stop xs.length)).drop (pyIdx start xs.length)

/-- The crop `undistorted_img[y1:y1+h, x1:x1+w]` of mono_calib.py line 99. -/
def cropImg (img : Img) (x1 y1 w h : Int) : Img :=
  ⟨(pySlice y1 (y1 + h) img.pix).map (fun row => pySlice x1 (x1 + w) row)⟩

/-- Translation of `undistort_img` (mono_calib.py lines 77-101): remap with the record's
`map_x`/`map_y`, then unpack `remap_roi` as a 4-tuple and crop.  A remap
rejection or an unpacking of a value that is not a 4-tuple of ints is a
raised exception (`none`). -/
def undistort_img (cv : CV) (img : Img) (d : MonoCalibData) : Option Img := do
  let und ← cv.remap img d.map_x d.map_y INTER_LINEAR
  match d.remap_roi with
  | .tup4 x1 y1 w h => some (cropImg und x1 y1 w h)
  | _ => none

/-- Translation of `undistort_img` with the caller-visible state threaded through: the
result is paired with the input frame and record as they stand after the
call.  The source contains no assignment to `img` or to any field of
`mono_calib_data`, so each branch returns them as read. -/
def undistort_img_effect (cv : CV) (img : Img) (d : MonoCalibData) :
    Option Img × Img × MonoCalibData :=
  match cv.remap img d.map_x d.map_y INTER_LINEAR with
  | none => (none, img, d)
  | some und =>
    match d.remap_roi with
    | .tup4 x1 y1 w h => (some (cropImg und x1 y1 w h), img, d)
    | _ => (none, img, d)

/-- The loop body of `reprojection_error` (mono_calib.py lines 119-124) over
a list of view indices: each step projects view `i`'s object points through
the solved model and adds `norm(image_points[i], projected) / len(projected)`.
A failing list subscript is an `IndexError` and a zero `len` a
`ZeroDivisionError`, both `none`. -/
def reprojLoop (cv : CV) (d : MonoCalibData) : List Nat → Option ℚ
  | [] => some 0
  | i :: is => do
    let op ← d.object_points[i]?
    let rv ← d.rvecs[i]?
    let tv ← d.tvecs[i]?
    let ip ← d.image_points[i]?
    let proj := cv.projectPoints op rv tv d.camera_matrix d.dist_coeffs
    if proj.length = 0 then none
    else do
      let rest ← reprojLoop cv d is
      some (cv.normL2 ip proj / (proj.length : ℚ) + rest)

/-- Translation of `reprojection_error` (mono_calib.py lines 104-126): the accumulated
per-view errors divided by the number of views; dividing by zero views is a
`ZeroDivisionError` (`none`). -/
def reprojection_error (cv : CV) (d : MonoCalibData) : Option ℚ :=
  match reprojLoop cv d (List.range d.object_points.length) with
  | none => none
  | some total =>
    if d.object_points.length = 0 then none
    else some (total / (d.object_points.length : ℚ))

/-- The per-view error named by the spec: the L2 norm between view `i`'s
detected points and its reprojected points, divided by the view's point
count. -/
def viewError (cv : CV) (d : MonoCalibData) (i : Nat) : ℚ :=
  let proj := cv.projectPoints (d.object_points.getD i []) (d.rvecs.getD i (0, 0, 0))
      (d.tvecs.getD i (0, 0, 0)) d.camera_matrix d.dist_coeffs
  cv.normL2 (d.image_points.getD i []) proj / (proj.length : ℚ)

/-- The spec's output: the arithmetic mean of `viewError` over all views. -/
def meanReprojError (cv : CV) (d : MonoCalibData) : ℚ :=
  (((List.range d.object_points.length).map (viewError cv d)).sum) /
    (d.object_points.length : ℚ)

/-- Squared Euclidean distance between two 3-D pattern points. -/
def sqDist (p q : Point3) : ℚ :=
  (p.1 - q.1) ^ 2 + (p.2.1 - q.2.1) ^ 2 + (p.2.2 - q.2.2) ^ 2

/-! ### The generated pattern `objp` -/

theorem mgridT_eq (a b : Nat) :
    mgridT a b = (List.range (a * b)).map (fun n => (n % a, n / a)) := by
  induction b with
  | zero => simp [mgridT]
  | succ b ih =>
    have h2 : List.range (a * (b + 1)) =
        List.range (a * b) ++ (List.range a).map (fun i => a * b + i) := by
      rw [Nat.mul_succ, List.range_add]
    rw [mgridT, List.range_succ, List.flatMap_append, ← mgridT, ih, h2,
        List.map_append, List.map_map]
    congr 1
    · simp only [List.flatMap_cons, List.flatMap_nil, List.append_nil]
      apply List.map_congr_left
      intro i hi
      have hia : i < a := List.mem_range.mp hi
      have ha : 0 < a := by omega
      simp only [Function.comp_apply]
      rw [Nat.mul_add_mod, Nat.mod_eq_of_lt hia, Nat.mul_add_div ha,
          Nat.div_eq_of_lt hia, Nat.add_zero]

theorem objp_length (a b : Nat) : (objp a b).length = a * b := by
  simp [objp, mgridT_eq]

theorem objp_getD (a b n : Nat) (h : n < a * b) :
    (objp a b).getD n (0, 0, 0) = (((n % a : ℕ) : ℚ), ((n / a : ℕ) : ℚ), 0) := by
  have h1 : (mgridT a b)[n]? = some (n % a, n / a) := by
    rw [mgridT_eq, List.getElem?_map, List.getElem?_range h]
    rfl
  rw [objp, List.getD_eq_getElem?_getD, List.getElem?_map, h1]
  rfl

/-- C5 (amended): the generated 3-D pattern has exactly `a*b` points, every
point lies in the `z = 0` plane, point `n` is `(n % a, n / a, 0)` — so the
`(x, y)` coordinates enumerate `{0..a-1} × {0..b-1}` row-major with `x`
varying fastest — and two consecutive points lying in the same grid row are
at unit spacing. -/
theorem C5_pattern_grid (a b : Nat) :
    (objp a b).length = a * b ∧
    (∀ p ∈ objp a b, p.2.2 = 0) ∧
    (∀ n : Nat, n < a * b →
      (objp a b).getD n (0, 0, 0) = (((n % a : ℕ) : ℚ), ((n / a : ℕ) : ℚ), 0)) ∧
    (∀ n : Nat, n + 1 < a * b → (n + 1) % a ≠ 0 →
      sqDist ((objp a b).getD n (0, 0, 0)) ((objp a b).getD (n + 1) (0, 0, 0)) = 1) := by
  refine ⟨objp_length a b, ?_, fun n h => objp_getD a b n h, ?_⟩
  · intro p hp
    simp only [objp, List.mem_map] at hp
    obtain ⟨q, _, rfl⟩ := hp
    rfl
  · intro n hn hrow
    have ha : 0 < a := by
      rcases Nat.eq_zero_or_pos a with h | h
      · subst h; simp at hn
      · exact h
    have hr : n % a < a := Nat.mod_lt _ ha
    have hdm : a * (n / a) + n % a = n := Nat.div_add_mod n a
    have hcase : n % a + 1 < a := by
      rcases Nat.lt_or_ge (n % a + 1) a with h | h
      · exact h
      · exfalso
        have heq : n % a + 1 = a := by omega
        have : n + 1 = a * (n / a + 1) := by
          rw [Nat.mul_succ]; omega
        rw [this, Nat.mul_mod_right] at hrow
        exact hrow rfl
    have hsplit : n + 1 = a * (n / a) + (n % a + 1) := by omega
    have hmod : (n + 1) % a = n % a + 1 := by
      rw [hsplit, Nat.mul_add_mod, Nat.mod_eq_of_lt hcase]
    have hdiv : (n + 1) / a = n / a := by
      rw [hsplit, Nat.mul_add_div ha, Nat.div_eq_of_lt hcase, Nat.add_zero]
    rw [objp_getD a b n (by omega), objp_getD a b (n + 1) hn, hmod, hdiv, sqDist]
    push_cast
    ring

/-- C5 witness: `C5_pattern_grid` at the concrete grid `(2, 3)`. -/
theorem C5_pattern_grid_witness :
    (objp 2 3).length = 6 ∧
    (objp 2 3).getD 3 (0, 0, 0) = (1, 1, 0) ∧
    sqDist ((objp 2 3).getD 2 (0, 0, 0)) ((objp 2 3).getD 3 (0, 0, 0)) = 1 := by
  refine ⟨(C5_pattern_grid 2 3).1, ?_, ?_⟩
  · have h := (C5_pattern_grid 2 3).2.2.1 3 (by decide)
    simpa using h
  · exact (C5_pattern_grid 2 3).2.2.2 2 (by decide) (by decide)

/-- C5 counterexample: in the pattern for the grid `(2, 2)`, the consecutive
points at indices 1 and 2 — the last point of row 0 and the first point of
row 1 — are at squared distance 2, not at unit spacing. -/
theorem C5_row_break_not_unit :
    (objp 2 2).getD 1 (0, 0, 0) = (1, 0, 0) ∧
    (objp 2 2).getD 2 (0, 0, 0) = (0, 1, 0) ∧
    sqDist ((objp 2 2).getD 1 (0, 0, 0)) ((objp 2 2).getD 2 (0, 0, 0)) = 2 := by
  have h1 := objp_getD 2 2 1 (by norm_num)
  have h2 := objp_getD 2 2 2 (by norm_num)
  refine ⟨?_, ?_, ?_⟩
  · rw [h1]; norm_num
  · rw [h2]; norm_num
  · rw [h1, h2]; norm_num [sqDist]

/-! ### The correspondence-building loop -/

theorem collectPoints_all_none (cv : CV) (cs : Size) (pattern : List Point3) :
    ∀ series : List String,
      (∀ p ∈ series,
        cv.findChessboardCorners (cv.cvtColor (cv.imread p)) cs none = none) →
      collectPoints cv cs pattern series = ([], []) := by
  intro series
  induction series with
  | nil => intro _; rfl
  | cons p rest ih =>
    intro h
    have hp := h p (List.mem_cons_self p rest)
    have hrest := ih (fun q hq => h q (List.mem_cons_of_mem p hq))
    simp [collectPoints, hp, hrest]

/-- C4: an image in which the chessboard grid is not located contributes no
entry to either the object-point list or the image-point list: removing it
from the series leaves the built correspondence set unchanged.  The loop
itself is total — there is no failing branch at this layer; absence from the
set is the only signal. -/
theorem C4_not_found_silently_skipped (cv : CV) (cs : Size) (pattern : List Point3)
    (bad : String)
    (hbad : cv.findChessboardCorners (cv.cvtColor (cv.imread bad)) cs none = none) :
    ∀ before after_ : List String,
      collectPoints cv cs pattern (before ++ bad :: after_) =
        collectPoints cv cs pattern (before ++ after_) := by
  intro before after_
  induction before with
  | nil => simp [collectPoints, hbad]
  | cons p rest ih =>
    simp only [List.cons_append, collectPoints, List.append_eq, ih]

/-- C4 witness: `C4_not_found_silently_skipped` on a concrete corner
detector that fails on the image named `"bad"` and succeeds elsewhere. -/
theorem C4_not_found_silently_skipped_witness :
    collectPoints
      ⟨fun _ => ⟨[[0]]⟩, id, fun _ _ _ => none, fun _ c _ _ _ => c,
        fun _ _ _ _ _ => none, fun m _ _ _ _ => (m, (0, 0, 1, 1)),
        fun _ _ _ _ _ _ => ([[0]], [[0]]), fun i _ _ _ => some i,
        fun op _ _ _ _ => op.map (fun q => (q.1, q.2.1)), fun _ _ => 0⟩
      (1, 1) (objp 1 1) (["a"] ++ "bad" :: ["b"]) =
    collectPoints
      ⟨fun _ => ⟨[[0]]⟩, id, fun _ _ _ => none, fun _ c _ _ _ => c,
        fun _ _ _ _ _ => none, fun m _ _ _ _ => (m, (0, 0, 1, 1)),
        fun _ _ _ _ _ _ => ([[0]], [[0]]), fun i _ _ _ => some i,
        fun op _ _ _ _ => op.map (fun q => (q.1, q.2.1)), fun _ _ => 0⟩
      (1, 1) (objp 1 1) (["a"] ++ ["b"]) :=
  C4_not_found_silently_skipped _ _ _ ("bad") rfl ["a"] ["b"]

/-- C6: under OpenCV's contracts that a successful chessboard search on an
`(a, b)` grid returns exactly `a * b` corners and that sub-pixel refinement
preserves the corner count, the correspondence set built by the image loop
of `get_calib_data` — with the generated pattern `objp a b` — has equally
many object-point views and image-point views, and every view in both lists
has exactly `a * b` points. -/
theorem C6_correspondence_invariant (cv : CV) (a b : Nat)
    (hdet : ∀ g c, cv.findChessboardCorners g (a, b) none = some c →
      c.length = a * b)
    (hsub : ∀ g c win zz cr, (cv.cornerSubPix g c win zz cr).length = c.length) :
    ∀ series : List String,
      (collectPoints cv (a, b) (objp a b) series).1.length =
        (collectPoints cv (a, b) (objp a b) series).2.length ∧
      (∀ v ∈ (collectPoints cv (a, b) (objp a b) series).1, v.length = a * b) ∧
      (∀ v ∈ (collectPoints cv (a, b) (objp a b) series).2, v.length = a * b) := by
  intro series
  induction series with
  | nil =>
    refine ⟨rfl, ?_, ?_⟩
    · intro v hv; simp [collectPoints] at hv
    · intro v hv; simp [collectPoints] at hv
  | cons p rest ih =>
    obtain ⟨ihlen, ihobj, ihimg⟩ := ih
    cases hfind : cv.findChessboardCorners (cv.cvtColor (cv.imread p)) (a, b) none with
    | none =>
      simp only [collectPoints, hfind]
      exact ⟨ihlen, ihobj, ihimg⟩
    | some corners =>
      simp only [collectPoints, hfind]
      refine ⟨by simpa using ihlen, ?_, ?_⟩
      · intro v hv
        rcases List.mem_cons.mp hv with h | h
        · rw [h]; exact objp_length a b
        · exact ihobj v h
      · intro v hv
        rcases List.mem_cons.mp hv with h | h
        · rw [h, hsub, hdet _ _ hfind]
        · exact ihimg v h

/-- C6 witness: `C6_correspondence_invariant` on a concrete detector for the
`(1, 1)` grid that returns one corner for the image named `"a"` and fails on
every other image. -/
theorem C6_correspondence_invariant_witness :
    (collectPoints
      ⟨fun _ => ⟨[[0]]⟩, id, fun _ _ _ => some [(0, 0)], fun _ c _ _ _ => c,
        fun _ _ _ _ _ => none, fun m _ _ _ _ => (m, (0, 0, 1, 1)),
        fun _ _ _ _ _ _ => ([[0]], [[0]]), fun i _ _ _ => some i,
        fun op _ _ _ _ => op.map (fun q => (q.1, q.2.1)), fun _ _ => 0⟩
      (1, 1) (objp 1 1) ["a"]).1.length =
    (collectPoints
      ⟨fun _ => ⟨[[0]]⟩, id, fun _ _ _ => some [(0, 0)], fun _ c _ _ _ => c,
        fun _ _ _ _ _ => none, fun m _ _ _ _ => (m, (0, 0, 1, 1)),
        fun _ _ _ _ _ _ => ([[0]], [[0]]), fun i _ _ _ => some i,
        fun op _ _ _ _ => op.map (fun q => (q.1, q.2.1)), fun _ _ => 0⟩
      (1, 1) (objp 1 1) ["a"]).2.length := by
  refine (C6_correspondence_invariant _ 1 1 ?_ ?_ ["a"]).1
  · intro g c h
    injection h with h
    rw [← h]
    rfl
  · intro g c win zz cr
    rfl

/-- C2 (amended): when no image in the series yields detected corners, the
correspondence lists are empty and `get_calib_data` propagates the untyped
error that the OpenCV solver raises on an empty input (the hypothesis
`hcal` is OpenCV's behaviour on zero views); it does not return a typed
`InsufficientData` value, and it returns no record, partial or otherwise. -/
theorem C2_zero_views_untyped_error (cv : CV) (cs : Size) (sz : Size)
    (series : List String)
    (hnone : ∀ p ∈ series,
      cv.findChessboardCorners (cv.cvtColor (cv.imread p)) cs none = none)
    (hcal : cv.calibrateCamera [] [] sz none none = none) :
    get_calib_data cv cs sz series = CalibOutcome.exn := by
  have hc := collectPoints_all_none cv cs (objp cs.1 cs.2) series hnone
  simp only [get_calib_data, hc, hcal]

/-- C2 witness: `C2_zero_views_untyped_error` on a concrete interface whose
detector never finds the pattern and whose solver rejects empty input. -/
theorem C2_zero_views_untyped_error_witness :
    get_calib_data
      ⟨fun _ => ⟨[[0]]⟩, id, fun _ _ _ => none, fun _ c _ _ _ => c,
        fun ops _ _ _ _ => if ops.isEmpty then none else
          some (0, [[1]], [[0]], [(0, 0, 0)], [(0, 0, 0)]),
        fun m _ _ _ _ => (m, (0, 0, 1, 1)),
        fun _ _ _ _ _ _ => ([[0]], [[0]]), fun i _ _ _ => some i,
        fun op _ _ _ _ => op.map (fun q => (q.1, q.2.1)), fun _ _ => 0⟩
      (2, 2) (4, 4) ["a", "b"] = CalibOutcome.exn := by
  apply C2_zero_views_untyped_error
  · intro p _
    rfl
  · rfl

/-- C2 counterexample: on a series with zero valid corner-detected views the
call does not return the typed `InsufficientData` failure — it ends in the
untyped-exception outcome instead. -/
theorem C2_zero_views_not_typed :
    get_calib_data
      ⟨fun _ => ⟨[[0]]⟩, id, fun _ _ _ => none, fun _ c _ _ _ => c,
        fun ops _ _ _ _ => if ops.isEmpty then none else
          some (0, [[1]], [[0]], [(0, 0, 0)], [(0, 0, 0)]),
        fun m _ _ _ _ => (m, (0, 0, 1, 1)),
        fun _ _ _ _ _ _ => ([[0]], [[0]]), fun i _ _ _ => some i,
        fun op _ _ _ _ => op.map (fun q => (q.1, q.2.1)), fun _ _ => 0⟩
      (2, 2) (4, 4) ["a", "b"] ≠ CalibOutcome.insufficientData ∧
    get_calib_data
      ⟨fun _ => ⟨[[0]]⟩, id, fun _ _ _ => none, fun _ c _ _ _ => c,
        fun ops _ _ _ _ => if ops.isEmpty then none else
          some (0, [[1]], [[0]], [(0, 0, 0)], [(0, 0, 0)]),
        fun m _ _ _ _ => (m, (0, 0, 1, 1)),
        fun _ _ _ _ _ _ => ([[0]], [[0]]), fun i _ _ _ => some i,
        fun op _ _ _ _ => op.map (fun q => (q.1, q.2.1)), fun _ _ => 0⟩
      (2, 2) (4, 4) ["a", "b"] = CalibOutcome.exn := by
  constructor
  · intro h
    simp [get_calib_data, collectPoints] at h
  · rfl

/-! ### The produced record and the ROI/remap constructor-argument swap -/

/-- A concrete OpenCV instance for evaluating the pipeline: every image
decodes to the one-pixel frame, the detector always reports the single
corner `(0, 0)`, the solver rejects empty input and otherwise returns
identity-like parameters, `getOptimalNewCameraMatrix` reports the ROI
`(1, 2, 3, 4)`, the map builder returns the matrices `[[10]]` and `[[20]]`,
and `remap` rejects a map argument that is not a matrix, as OpenCV does. -/
def cvDemo : CV where
  imread := fun _ => ⟨[[0]]⟩
  cvtColor := id
  findChessboardCorners := fun _ _ _ => some [(0, 0)]
  cornerSubPix := fun _ c _ _ _ => c
  calibrateCamera := fun ops _ _ _ _ =>
    if ops.isEmpty then none else some (0, [[1]], [[0]], [(0, 0, 0)], [(0, 0, 0)])
  getOptimalNewCameraMatrix := fun m _ _ _ _ => (m, (1, 2, 3, 4))
  initUndistortRectifyMap := fun _ _ _ _ _ _ => ([[10]], [[20]])
  remap := fun i mx _ _ =>
    match mx with
    | .mat _ => some i
    | _ => none
  projectPoints := fun op _ _ _ _ => op.map (fun q => (q.1, q.2.1))
  normL2 := fun _ _ => 0

/-- C1: evaluating `get_calib_data` on a run whose map builder returns the
maps `[[10]], [[20]]` and whose ROI is `(1, 2, 3, 4)` shows the swapped
constructor call of mono_calib.py lines 71-72: the returned record holds the
pair of remap matrices in `remap_roi`, and the ROI's first two integers —
not the remap matrices — in `map_x` and `map_y`.  Consequently the module's
own `undistort_img` raises on every record produced by `get_calib_data`. -/
theorem C1_roi_remap_swapped :
    get_calib_data cvDemo (1, 1) (4, 4) ["a"] =
      CalibOutcome.ok
        ⟨[objp 1 1], [[(0, 0)]], [[1]], [[0]], [(0, 0, 0)], [(0, 0, 0)], [[1]],
          PyVal.pair (PyVal.mat [[10]]) (PyVal.mat [[20]]),
          PyVal.int 1, PyVal.int 2⟩ ∧
    undistort_img cvDemo ⟨[[0]]⟩
        ⟨[objp 1 1], [[(0, 0)]], [[1]], [[0]], [(0, 0, 0)], [(0, 0, 0)], [[1]],
          PyVal.pair (PyVal.mat [[10]]) (PyVal.mat [[20]]),
          PyVal.int 1, PyVal.int 2⟩ = none := by
  exact ⟨rfl, rfl⟩

/-! ### Python slicing and the crop -/

theorem pyIdx_of_nonneg (i : Int) (L : Nat) (h0 : 0 ≤ i) (hL : i ≤ (L : Int)) :
    pyIdx i L = i.toNat := by
  unfold pyIdx
  rw [if_neg (by omega)]
  omega

theorem pySlice_length (s n : Int) (xs : List α) (h0s : 0 ≤ s) (h0n : 0 ≤ n)
    (hle : s + n ≤ (xs.length : Int)) :
    (pySlice s (s + n) xs).length = n.toNat := by
  unfold pySlice
  rw [List.length_drop, List.length_take,
      pyIdx_of_nonneg s xs.length h0s (by omega),
      pyIdx_of_nonneg (s + n) xs.length (by omega) hle]
  omega

theorem pySlice_mem {xs : List α} {x : α} (s t : Int) (hx : x ∈ pySlice s t xs) :
    x ∈ xs := by
  unfold pySlice at hx
  exact List.mem_of_mem_take (List.mem_of_mem_drop hx)

/-- C7: on a record whose map fields hold matrices and whose ROI field holds
the 4-tuple `(x1, y1, w, h)`, when the remap succeeds and the ROI lies
within the remapped frame (the spec's same-size precondition),
`undistort_img` returns exactly the remap of the raw frame followed by the
ROI crop, and the returned frame has exactly `h` rows of `w` pixels each. -/
theorem C7_undistort_remap_then_crop (cv : CV) (img und : Img) (d : MonoCalibData)
    (x1 y1 w h : Int)
    (hroi : d.remap_roi = PyVal.tup4 x1 y1 w h)
    (hremap : cv.remap img d.map_x d.map_y INTER_LINEAR = some und)
    (hx1 : 0 ≤ x1) (hy1 : 0 ≤ y1) (hw : 0 ≤ w) (hh : 0 ≤ h)
    (hyh : y1 + h ≤ (und.pix.length : Int))
    (hrect : ∀ row ∈ und.pix, x1 + w ≤ (row.length : Int)) :
    undistort_img cv img d = some (cropImg und x1 y1 w h) ∧
    (cropImg und x1 y1 w h).pix.length = h.toNat ∧
    ∀ row ∈ (cropImg und x1 y1 w h).pix, row.length = w.toNat := by
  refine ⟨?_, ?_, ?_⟩
  · simp [undistort_img, hremap, hroi]
  · simpa [cropImg] using pySlice_length y1 h und.pix hy1 hh hyh
  · intro row hrow
    simp only [cropImg, List.mem_map] at hrow
    obtain ⟨row0, hrow0, rfl⟩ := hrow
    have hmem : row0 ∈ und.pix := pySlice_mem y1 (y1 + h) hrow0
    exact pySlice_length x1 w row0 hx1 hw (hrect row0 hmem)

/-- A record whose fields have the semantics documented in calib_data.py —
maps in the map fields, a 4-tuple in the ROI field — used as the C7
witness input. -/
def dWellFormed : MonoCalibData :=
  ⟨[[(0, 0, 0)]], [[(0, 0)]], [[1]], [[0]], [(0, 0, 0)], [(0, 0, 0)], [[1]],
    PyVal.tup4 0 0 1 1, PyVal.mat [[0]], PyVal.mat [[0]]⟩

/-- C7 witness: `C7_undistort_remap_then_crop` on a concrete 2×2 frame and
the well-formed record with ROI `(0, 0, 1, 1)`. -/
theorem C7_undistort_remap_then_crop_witness :
    undistort_img cvDemo ⟨[[0, 0], [0, 0]]⟩ dWellFormed =
      some (cropImg ⟨[[0, 0], [0, 0]]⟩ 0 0 1 1) ∧
    (cropImg (⟨[[0, 0], [0, 0]]⟩ : Img) 0 0 1 1).pix.length = (1 : Int).toNat ∧
    ∀ row ∈ (cropImg (⟨[[0, 0], [0, 0]]⟩ : Img) 0 0 1 1).pix,
      row.length = (1 : Int).toNat := by
  refine C7_undistort_remap_then_crop cvDemo ⟨[[0, 0], [0, 0]]⟩ ⟨[[0, 0], [0, 0]]⟩
    dWellFormed 0 0 1 1 rfl rfl (by norm_num) (by norm_num) (by norm_num)
    (by norm_num) (by norm_num) ?_
  intro row hrow
  simp at hrow
  subst hrow
  norm_num

/-- C8: `undistort_img` has no caller-visible side effect: with the raw
frame and the record threaded through the call as explicit state, every
branch returns both unchanged — the source assigns to neither — and the
value produced is exactly `undistort_img`'s result, a fresh frame. -/
theorem C8_undistort_no_side_effect (cv : CV) (img : Img) (d : MonoCalibData) :
    (undistort_img_effect cv img d).2.1 = img ∧
    (undistort_img_effect cv img d).2.2 = d ∧
    (undistort_img_effect cv img d).1 = undistort_img cv img d := by
  unfold undistort_img_effect undistort_img
  cases hr : cv.remap img d.map_x d.map_y INTER_LINEAR with
  | none => exact ⟨rfl, rfl, rfl⟩
  | some und => cases d.remap_roi <;> exact ⟨rfl, rfl, rfl⟩

/-! ### The reprojection error -/

theorem reprojLoop_eq_sum (cv : CV) (d : MonoCalibData)
    (hproj : ∀ op rv tv,
      (cv.projectPoints op rv tv d.camera_matrix d.dist_coeffs).length = op.length) :
    ∀ is : List Nat,
      (∀ i ∈ is, i < d.object_points.length ∧ i < d.image_points.length ∧
        i < d.rvecs.length ∧ i < d.tvecs.length ∧ d.object_points.getD i [] ≠ []) →
      reprojLoop cv d is = some ((is.map (viewError cv d)).sum) := by
  intro is
  induction is with
  | nil => intro _; rfl
  | cons i rest ih =>
    intro hmem
    obtain ⟨hop, hip, hrv, htv, hne⟩ := hmem i (List.mem_cons_self i rest)
    have hrest := ih (fun j hj => hmem j (List.mem_cons_of_mem i hj))
    have hcond :
        (cv.projectPoints d.object_points[i] d.rvecs[i] d.tvecs[i]
          d.camera_matrix d.dist_coeffs).length ≠ 0 := by
      rw [hproj]
      intro hz
      apply hne
      rw [List.getD_eq_getElem d.object_points [] hop]
      exact List.eq_nil_of_length_eq_zero hz
    simp only [reprojLoop, List.getElem?_eq_getElem hop,
      List.getElem?_eq_getElem hip, List.getElem?_eq_getElem hrv,
      List.getElem?_eq_getElem htv, bind, Option.bind,
      if_neg hcond, hrest, List.map_cons, List.sum_cons]
    rw [viewError, List.getD_eq_getElem d.object_points [] hop,
      List.getD_eq_getElem d.image_points [] hip,
      List.getD_eq_getElem d.rvecs (0, 0, 0) hrv,
      List.getD_eq_getElem d.tvecs (0, 0, 0) htv]

/-- C3: on a record with at least one view, whose per-view lists are at
least view-count long, under OpenCV's contracts that projection returns one
point per input point and that an L2 norm is non-negative,
`reprojection_error` returns a single value equal to the arithmetic mean,
over all views, of (the L2 norm between the view's detected points and its
reprojected points) divided by that view's point count — and that value is
non-negative. -/
theorem C3_reproj_error_is_mean (cv : CV) (d : MonoCalibData)
    (hproj : ∀ op rv tv,
      (cv.projectPoints op rv tv d.camera_matrix d.dist_coeffs).length = op.length)
    (hnn : ∀ aPts bPts, 0 ≤ cv.normL2 aPts bPts)
    (hviews : 0 < d.object_points.length)
    (hip : d.object_points.length ≤ d.image_points.length)
    (hrv : d.object_points.length ≤ d.rvecs.length)
    (htv : d.object_points.length ≤ d.tvecs.length)
    (hne : ∀ v ∈ d.object_points, v ≠ []) :
    reprojection_error cv d = some (meanReprojError cv d) ∧
    0 ≤ meanReprojError cv d := by
  constructor
  · have hloop := reprojLoop_eq_sum cv d hproj (List.range d.object_points.length) ?_
    · have h0 : ¬ d.object_points.length = 0 := by omega
      simp only [reprojection_error, hloop, if_neg h0]
      rfl
    · intro i hi
      have hilen : i < d.object_points.length := List.mem_range.mp hi
      refine ⟨hilen, by omega, by omega, by omega, ?_⟩
      rw [List.getD_eq_getElem d.object_points [] hilen]
      exact hne _ (List.getElem_mem hilen)
  · apply div_nonneg
    · apply List.sum_nonneg
      intro x hx
      simp only [List.mem_map] at hx
      obtain ⟨i, _, rfl⟩ := hx
      exact div_nonneg (hnn _ _) (Nat.cast_nonneg _)
    · exact Nat.cast_nonneg _

/-- C3 witness: `C3_reproj_error_is_mean` on the concrete interface and the
one-view, one-point well-formed record. -/
theorem C3_reproj_error_is_mean_witness :
    reprojection_error cvDemo dWellFormed =
      some (meanReprojError cvDemo dWellFormed) ∧
    0 ≤ meanReprojError cvDemo dWellFormed := by
  refine C3_reproj_error_is_mean cvDemo dWellFormed ?_ ?_ ?_ ?_ ?_ ?_ ?_
  · intro op rv tv
    exact List.length_map op _
  · intro aPts bPts
    exact le_refl 0
  · norm_num [dWellFormed]
  · norm_num [dWellFormed]
  · norm_num [dWellFormed]
  · norm_num [dWellFormed]
  · intro v hv
    simp only [dWellFormed, List.mem_singleton] at hv
    subst hv
    simp

/-- C10: on a record whose per-view lists are at least view-count long,
under the projection-length contract: if the record has at least one view
and every view has at least one point, every division `reprojection_error`
performs has a nonzero divisor and the call returns a value; with zero
views, the final division is by zero and the call fails. -/
theorem C10_reproj_error_division_totality (cv : CV) (d : MonoCalibData)
    (hproj : ∀ op rv tv,
      (cv.projectPoints op rv tv d.camera_matrix d.dist_coeffs).length = op.length)
    (hip : d.object_points.length ≤ d.image_points.length)
    (hrv : d.object_points.length ≤ d.rvecs.length)
    (htv : d.object_points.length ≤ d.tvecs.length)
    (hne : ∀ v ∈ d.object_points, v ≠ []) :
    (d.object_points ≠ [] → (reprojection_error cv d).isSome) ∧
    (d.object_points = [] → reprojection_error cv d = none) := by
  constructor
  · intro hne0
    have hviews : 0 < d.object_points.length := List.length_pos.mpr hne0
    have hloop := reprojLoop_eq_sum cv d hproj (List.range d.object_points.length) ?_
    · have h0 : ¬ d.object_points.length = 0 := by omega
      simp only [reprojection_error, hloop, if_neg h0]
      rfl
    · intro i hi
      have hilen : i < d.object_points.length := List.mem_range.mp hi
      refine ⟨hilen, by omega, by omega, by omega, ?_⟩
      rw [List.getD_eq_getElem d.object_points [] hilen]
      exact hne _ (List.getElem_mem hilen)
  · intro h0
    have hlen : d.object_points.length = 0 := by rw [h0]; rfl
    rw [reprojection_error, hlen]
    simp [reprojLoop]

/-- C10 witness: `C10_reproj_error_division_totality` on the concrete
interface and the one-view, one-point well-formed record. -/
theorem C10_reproj_error_division_totality_witness :
    dWellFormed.object_points ≠ [] ∧
    (reprojection_error cvDemo dWellFormed).isSome := by
  have h := C10_reproj_error_division_totality cvDemo dWellFormed
    (fun op rv tv => List.length_map op _)
    (by norm_num [dWellFormed]) (by norm_num [dWellFormed])
    (by norm_num [dWellFormed]) ?_
  · have hne : dWellFormed.object_points ≠ [] := by
      simp [dWellFormed]
    exact ⟨hne, h.1 hne⟩
  · intro v hv
    simp only [dWellFormed, List.mem_singleton] at hv
    subst hv
    simp

/-! ### The fixed crop parameter of the mono pipeline -/

/-- C9: `get_calib_data` consults the optimal-matrix builder only at crop
parameter alpha = 1 with destination size equal to the input image size, and
the map builder only at the input image size: two OpenCV interfaces that
agree on those calls — and on everything outside the two builders — yield
identical calibration outcomes, whatever they do at other alpha values or
destination sizes.  (The translated signature also records that alpha is not
a parameter of `get_calib_data`.) -/
theorem C9_alpha_one_full_size (cv cvA : CV) (cs : Size) (sz : Size)
    (series : List String)
    (h1 : cvA.imread = cv.imread) (h2 : cvA.cvtColor = cv.cvtColor)
    (h3 : cvA.findChessboardCorners = cv.findChessboardCorners)
    (h4 : cvA.cornerSubPix = cv.cornerSubPix)
    (h5 : cvA.calibrateCamera = cv.calibrateCamera)
    (hopt : ∀ m dc, cvA.getOptimalNewCameraMatrix m dc sz 1 sz =
      cv.getOptimalNewCameraMatrix m dc sz 1 sz)
    (hmap : ∀ m dc r nm t, cvA.initUndistortRectifyMap m dc r nm sz t =
      cv.initUndistortRectifyMap m dc r nm sz t) :
    get_calib_data cvA cs sz series = get_calib_data cv cs sz series := by
  have hcollect : ∀ pattern s,
      collectPoints cvA cs pattern s = collectPoints cv cs pattern s := by
    intro pattern s
    induction s with
    | nil => rfl
    | cons p rest ih => simp only [collectPoints, h1, h2, h3, h4, ih]
  simp only [get_calib_data, hcollect, h5]
  cases hc : cv.calibrateCamera
      (collectPoints cv cs (objp cs.1 cs.2) series).1
      (collectPoints cv cs (objp cs.1 cs.2) series).2 sz none none with
  | none => rfl
  | some val =>
    obtain ⟨r, cm, dc, rv, tv⟩ := val
    simp only [hopt, hmap]

/-- A copy of `cvDemo` with an optimal-matrix builder that returns garbage at every
alpha other than 1 and every destination size other than the queried image
size; used by the C9 witness. -/
def cvDemoAlt : CV :=
  { cvDemo with
    getOptimalNewCameraMatrix := fun m dc s alpha ns =>
      if alpha = 1 ∧ ns = s then cvDemo.getOptimalNewCameraMatrix m dc s alpha ns
      else ([], (9, 9, 9, 9)) }

/-- C9 witness: an interface returning garbage at every alpha other than 1
and a destination size other than the input size yields the same outcome as
the unmodified one. -/
theorem C9_alpha_one_full_size_witness :
    get_calib_data cvDemoAlt (1, 1) (4, 4) ["a"] =
    get_calib_data cvDemo (1, 1) (4, 4) ["a"] := by
  refine C9_alpha_one_full_size cvDemo cvDemoAlt (1, 1) (4, 4) ["a"]
    rfl rfl rfl rfl rfl ?_ ?_
  · intro m dc
    simp [cvDemoAlt]
  · intro m dc r nm t
    rfl

end Unireo
